import Mathlib

/-!
Verification of the table-rendering core of `awscli/formatter.py`
(`TableFormatter` and its tree-to-table builder `_build_table`,
`_build_sub_table_from_list`, `_build_sub_table_from_dict`,
`_group_scalar_keys`, `_group_scalar_keys_from_list`, `_scalar_type`),
plus the render-boundary error handling of
`TableFormatter._format_response`.

The nested response data is embedded as `Value` (scalar / sequence /
mapping, with mappings as ordered association lists, mirroring Python's
insertion-ordered `dict`).  The `MultiTable` sink (`awscli/table.py`,
external to this file's source) is abstracted by the trace of builder
calls made into it: `new_section`, `add_row_header` and `add_row` become
`Op` constructors, and every builder function returns the list of ops it
emits, in order.  This is faithful because the builder only ever appends
through those three methods.
-/

/-- Python scalars as classified by `_scalar_type` (anything that is not a
`list` or a `dict`): strings, numbers, booleans, `None`. -/
inductive Scalar where
  | str (v : String)
  | int (v : Int)
  | bool (v : Bool)
  | null
deriving DecidableEq, Repr

/-- Python truthiness of a scalar: `''`, `0`, `False` and `None` are falsy. -/
def Scalar.truthy : Scalar → Bool
  | .str v => !(v == "")
  | .int v => !(v == 0)
  | .bool v => v
  | .null => false

/-- The nested response data: a scalar, a list, or an insertion-ordered
dict with string keys (`dict` in the source). -/
inductive Value where
  | scalar (s : Scalar)
  | seq (xs : List Value)
  | map (kvs : List (String × Value))
deriving Repr

/-- Python truthiness of a value: empty lists and dicts are falsy
(`if not current: return False` in `_build_table`). -/
def Value.truthy : Value → Bool
  | .scalar s => s.truthy
  | .seq xs => !xs.isEmpty
  | .map kvs => !kvs.isEmpty

/-- The `isinstance(current, dict)` test. -/
def Value.isMap : Value → Bool
  | .map _ => true
  | _ => false

/-- The `_scalar_type` predicate: `not isinstance(element, (list, dict))`. -/
def scalarType : Value → Bool
  | .scalar _ => true
  | _ => false

/-- The key/value pairs of a mapping.  Python raises `TypeError` on most
non-mapping arguments where the record routines index by key; the
embedding is total instead and gives a non-mapping an empty key set, so
every theorem about the record routines restricts itself to lists whose
elements are all mappings -- the domain on which this embedding is
faithful to the source. -/
def Value.asMap : Value → List (String × Value)
  | .map kvs => kvs
  | _ => []

/-- Python iteration over a non-scalar container, as used by
`for el in item` in `_build_table`: a list yields its elements and a dict
yields its keys (each key being a Python `str`, hence a scalar). -/
def Value.iterate : Value → List Value
  | .seq xs => xs
  | .map kvs => kvs.map (fun kv => Value.scalar (.str kv.1))
  | .scalar _ => []

/-- First-match association lookup: Python `d[k]` / `k in d` on a dict
whose keys are unique. -/
def lookupKV : List (String × Value) → String → Option Value
  | [], _ => none
  | kv :: rest, k => if kv.1 = k then some kv.2 else lookupKV rest k

/-- Python `d[k]` at call sites where the key is known to be present
(`current[remaining]`, `current[headers[0]]`); the default is never
reached there because the key was taken from the dict itself. -/
def getItem (kvs : List (String × Value)) (k : String) : Value :=
  (lookupKV kvs k).getD (Value.scalar .null)

/-- Python `element.get(header, '')`: lookup with empty-string fallback. -/
def getDefault (kvs : List (String × Value)) (k : String) : Value :=
  (lookupKV kvs k).getD (Value.scalar (.str ""))

/-! ### Lexicographic string order

Python's `sorted()` on `str` compares lexicographically by code point.
`String.ltb` in Lean is not kernel-reducible, so the same order is
defined here structurally on the underlying character lists. -/

/-- Strict lexicographic order on character lists (Python `<` on `str`). -/
def lexLt : List Char → List Char → Bool
  | _, [] => false
  | [], _ :: _ => true
  | a :: as, b :: bs => if a < b then true else if a = b then lexLt as bs else false

/-- Non-strict lexicographic order on strings. -/
def strLeB (a b : String) : Bool := !(lexLt b.data a.data)

/-- The sort relation used for key ordering. -/
def strLe (a b : String) : Prop := strLeB a b = true

instance : DecidableRel strLe := fun a b => by
  unfold strLe; infer_instance

theorem lexLt_cons_iff {a b : Char} {as bs : List Char} :
    lexLt (a :: as) (b :: bs) = true ↔ a < b ∨ (a = b ∧ lexLt as bs = true) := by
  simp only [lexLt]
  split_ifs with h1 h2
  · simp [h1]
  · simp [h1, h2]
  · simp [h1, h2]

theorem lexLt_asymm : ∀ x y : List Char, lexLt x y = true → lexLt y x = false
  | _, [], h => by simp [lexLt] at h
  | [], _ :: _, _ => rfl
  | a :: as, b :: bs, h => by
    rw [← Bool.not_eq_true]
    intro hyx
    rcases lexLt_cons_iff.mp h with h1 | ⟨rfl, h2⟩
    · rcases lexLt_cons_iff.mp hyx with h3 | ⟨h3, _⟩
      · exact lt_asymm h1 h3
      · exact absurd (h3 ▸ h1) (lt_irrefl _)
    · rcases lexLt_cons_iff.mp hyx with h3 | ⟨_, h4⟩
      · exact lt_irrefl _ h3
      · exact absurd h4 (by rw [lexLt_asymm as bs h2]; simp)

theorem lexLt_connex : ∀ x y : List Char,
    lexLt x y = false → lexLt y x = false → x = y
  | [], [], _, _ => rfl
  | [], _ :: _, h, _ => by simp [lexLt] at h
  | _ :: _, [], _, h => by simp [lexLt] at h
  | a :: as, b :: bs, h, h' => by
    have hxy : ¬(a < b ∨ (a = b ∧ lexLt as bs = true)) := by
      intro p
      have hp := lexLt_cons_iff.mpr p
      rw [h] at hp
      exact Bool.noConfusion hp
    have hyx : ¬(b < a ∨ (b = a ∧ lexLt bs as = true)) := by
      intro p
      have hp := lexLt_cons_iff.mpr p
      rw [h'] at hp
      exact Bool.noConfusion hp
    have hab : a = b := by
      rcases lt_trichotomy a b with h1 | h1 | h1
      · exact absurd (Or.inl h1) hxy
      · exact h1
      · exact absurd (Or.inl h1) hyx
    subst hab
    have htail : lexLt as bs = false := by
      cases htl : lexLt as bs with
      | false => rfl
      | true => exact absurd (Or.inr ⟨rfl, htl⟩) hxy
    have htail' : lexLt bs as = false := by
      cases htl : lexLt bs as with
      | false => rfl
      | true => exact absurd (Or.inr ⟨rfl, htl⟩) hyx
    rw [lexLt_connex as bs htail htail']

theorem lexLt_trans : ∀ x y z : List Char,
    lexLt x y = true → lexLt y z = true → lexLt x z = true
  | _, _, [], _, h => by simp [lexLt] at h
  | [], _ :: _, _ :: _, _, _ => rfl
  | _ :: _, [], _, h, _ => by simp [lexLt] at h
  | a :: as, b :: bs, c :: cs, h, h' => by
    rcases lexLt_cons_iff.mp h with h1 | ⟨rfl, h2⟩ <;>
      rcases lexLt_cons_iff.mp h' with h3 | ⟨h3, h4⟩
    · exact lexLt_cons_iff.mpr (Or.inl (lt_trans h1 h3))
    · exact lexLt_cons_iff.mpr (Or.inl (h3 ▸ h1))
    · exact lexLt_cons_iff.mpr (Or.inl h3)
    · exact lexLt_cons_iff.mpr (Or.inr ⟨h3, lexLt_trans as bs cs h2 h4⟩)

instance : IsTotal String strLe :=
  ⟨fun a b => by
    unfold strLe strLeB
    cases hab : lexLt b.data a.data with
    | false => exact Or.inl (by simp)
    | true => exact Or.inr (by simp [lexLt_asymm _ _ hab])⟩

instance : IsTrans String strLe :=
  ⟨fun a b c hab hbc => by
    unfold strLe strLeB at *
    simp only [Bool.not_eq_true'] at *
    cases hab' : lexLt a.data b.data with
    | false =>
      have hba : b.data = a.data := lexLt_connex _ _ hab hab'
      rw [← hba]
      exact hbc
    | true =>
      cases hca : lexLt c.data a.data with
      | false => rfl
      | true =>
        have htr := lexLt_trans _ _ _ hca hab'
        simp [hbc] at htr⟩

instance : IsAntisymm String strLe :=
  ⟨fun a b hab hba => by
    unfold strLe strLeB at hab hba
    simp only [Bool.not_eq_true'] at hab hba
    exact congrArg String.mk (lexLt_connex _ _ hba hab)⟩

/-- Python `sorted()` on string keys: lexicographic by code point. -/
def sortStr (l : List String) : List String := List.insertionSort strLe l

theorem sortStr_perm (l : List String) : List.Perm (sortStr l) l :=
  List.perm_insertionSort strLe l

theorem sortStr_sorted (l : List String) : List.Sorted strLe (sortStr l) :=
  List.sorted_insertionSort strLe l

theorem sortStr_eq_of_perm {l₁ l₂ : List String} (h : List.Perm l₁ l₂) :
    sortStr l₁ = sortStr l₂ :=
  List.eq_of_perm_of_sorted
    ((sortStr_perm l₁).trans (h.trans (sortStr_perm l₂).symm))
    (sortStr_sorted l₁) (sortStr_sorted l₂)

/-- Duplicate removal, used to model the Python `set` that
`_group_scalar_keys_from_list` accumulates keys into: the set is
represented by the accumulated key list with duplicates removed (which
occurrence survives is irrelevant, since the set is only ever observed
through `sorted()`). -/
def dedupStr : List String → List String
  | [] => []
  | a :: as => if as.contains a then dedupStr as else a :: dedupStr as

theorem mem_dedupStr {a : String} : ∀ {l : List String}, a ∈ dedupStr l ↔ a ∈ l
  | [] => Iff.rfl
  | b :: bs => by
    simp only [dedupStr]
    split_ifs with hb
    · rw [mem_dedupStr]
      constructor
      · exact fun h => List.mem_cons_of_mem _ h
      · intro h
        rcases List.mem_cons.mp h with rfl | h
        · exact List.mem_of_elem_eq_true hb
        · exact h
    · simp only [List.mem_cons, mem_dedupStr]

theorem nodup_dedupStr : ∀ l : List String, (dedupStr l).Nodup
  | [] => List.nodup_nil
  | b :: bs => by
    simp only [dedupStr]
    split_ifs with hb
    · exact nodup_dedupStr bs
    · refine List.Nodup.cons ?_ (nodup_dedupStr bs)
      intro hmem
      exact hb (List.elem_eq_true_of_mem (mem_dedupStr.mp hmem))

/-- `_group_scalar_keys`: separate a dict's keys into those whose values
are scalar (`headers`) and the remaining keys (`more`), each list sorted
(`headers.sort(); more.sort()`). -/
def groupScalarKeys (kvs : List (String × Value)) : List String × List String :=
  (sortStr ((kvs.filter (fun kv => scalarType kv.2)).map Prod.fst),
   sortStr ((kvs.filter (fun kv => !scalarType kv.2)).map Prod.fst))

/-- `_group_scalar_keys_from_list`: union the per-record scalar-key and
structural-key lists over all records; the Python `set` accumulators are
modelled by `dedupStr` of the concatenation, and `sorted(...)` by
`sortStr`. -/
def groupScalarKeysFromList (l : List Value) : List String × List String :=
  (sortStr (dedupStr ((l.map (fun item => (groupScalarKeys item.asMap).1)).flatten)),
   sortStr (dedupStr ((l.map (fun item => (groupScalarKeys item.asMap).2)).flatten)))

/-- One mutation of the `MultiTable`: the builder only touches the table
through `new_section`, `add_row_header` and `add_row`, so the table state
is exactly the ordered trace of these operations.  `add_row`'s argument
is recorded as the list of Python values the table will iterate over. -/
inductive Op where
  | newSection (title : Option String) (indentLevel : Nat)
  | rowHeader (headers : List String)
  | row (cells : List Value)
deriving Repr

theorem sizeOf_lookupKV_lt {kvs : List (String × Value)} {k : String} {v : Value}
    (h : lookupKV kvs k = some v) : sizeOf v < sizeOf kvs := by
  induction kvs with
  | nil => simp [lookupKV] at h
  | cons kv rest ih =>
    simp only [lookupKV] at h
    split_ifs at h with hk
    · injection h with h
      subst h
      cases kv with
      | mk k1 v1 =>
        simp only [List.cons.sizeOf_spec, Prod.mk.sizeOf_spec]
        omega
    · have := ih h
      simp only [List.cons.sizeOf_spec]
      omega

theorem sizeOf_asMap_lookup_lt {e : Value} {k : String} {v : Value}
    (h : lookupKV e.asMap k = some v) : sizeOf v < sizeOf e := by
  cases e with
  | map kvs =>
    simp only [Value.asMap] at h
    have := sizeOf_lookupKV_lt h
    simp only [Value.map.sizeOf_spec]
    omega
  | scalar s => simp [Value.asMap, lookupKV] at h
  | seq xs => simp [Value.asMap, lookupKV] at h

mutual

/-- `_build_table(title, current, indent_level)`: returns the trace of
table operations together with the boolean the method returns. -/
def buildTable (title : Option String) (current : Value) (indentLevel : Nat) :
    List Op × Bool :=
  if current.truthy = false then ([], false)
  else
    let secOps : List Op :=
      if title.isSome then [Op.newSection title indentLevel] else []
    let body : List Op :=
      match current with
      | .scalar _ => []
      | .seq [] => []
      | .seq (x :: xs) =>
        if x.isMap then buildSubTableFromList (x :: xs) indentLevel title
        else buildSeqItems (x :: xs)
      | .map kvs => buildSubTableFromDict kvs indentLevel
    (secOps ++ body, true)
termination_by (sizeOf current, 9, 0)
decreasing_by
  all_goals
    simp_wf
    simp only [Prod.lex_def]
    first
      | omega
      | (refine Or.inr ⟨trivial, ?_⟩
         first
           | omega
           | (refine Or.inr ⟨trivial, ?_⟩; omega))
      | (have hlt := sizeOf_asMap_lookup_lt h; omega)
      | (have hlt := sizeOf_lookupKV_lt h; omega)

/-- The `for item in current` loop of `_build_table`'s branch for a
sequence whose first element is not a dict. -/
def buildSeqItems (items : List Value) : List Op :=
  match items with
  | [] => []
  | item :: rest =>
    (if scalarType item then [Op.row [item]]
     else if item.iterate.all scalarType then [Op.row item.iterate]
     else (buildTable none item 0).1)
    ++ buildSeqItems rest
termination_by (sizeOf items, 0, 0)
decreasing_by
  all_goals
    simp_wf
    simp only [Prod.lex_def]
    first
      | omega
      | (refine Or.inr ⟨trivial, ?_⟩
         first
           | omega
           | (refine Or.inr ⟨trivial, ?_⟩; omega))
      | (have hlt := sizeOf_asMap_lookup_lt h; omega)
      | (have hlt := sizeOf_lookupKV_lt h; omega)

/-- `_build_sub_table_from_list(current, indent_level, title)`. -/
def buildSubTableFromList (current : List Value) (indentLevel : Nat)
    (title : Option String) : List Op :=
  let hm := groupScalarKeysFromList current
  Op.rowHeader hm.1 :: buildListRecords hm.1 hm.2 title indentLevel true current
termination_by (sizeOf current + 1, 1, 0)
decreasing_by
  all_goals
    simp_wf
    simp only [Prod.lex_def]
    first
      | omega
      | (refine Or.inr ⟨trivial, ?_⟩
         first
           | omega
           | (refine Or.inr ⟨trivial, ?_⟩; omega))
      | (have hlt := sizeOf_asMap_lookup_lt h; omega)
      | (have hlt := sizeOf_lookupKV_lt h; omega)

/-- The `for element in current` loop of `_build_sub_table_from_list`,
carrying its `first` flag. -/
def buildListRecords (headers more : List String) (title : Option String)
    (indentLevel : Nat) (first : Bool) (records : List Value) : List Op :=
  match records with
  | [] => []
  | element :: rest =>
    (if !first && !more.isEmpty
     then [Op.newSection title indentLevel, Op.rowHeader headers] else [])
    ++ (Op.row (headers.map (fun h => getDefault element.asMap h))
        :: buildMoreKeysFromList element more indentLevel)
    ++ buildListRecords headers more title indentLevel false rest
termination_by (sizeOf records + 1, 0, 1)
decreasing_by
  all_goals
    simp_wf
    simp only [Prod.lex_def]
    first
      | omega
      | (refine Or.inr ⟨trivial, ?_⟩
         first
           | omega
           | (refine Or.inr ⟨trivial, ?_⟩; omega))
      | (have hlt := sizeOf_asMap_lookup_lt h; omega)
      | (have hlt := sizeOf_lookupKV_lt h; omega)

/-- The `for remaining in more` loop at the end of each record of
`_build_sub_table_from_list`; the `none` arm is the
`if remaining in element` guard failing. -/
def buildMoreKeysFromList (element : Value) (more : List String)
    (indentLevel : Nat) : List Op :=
  match more with
  | [] => []
  | k :: ks =>
    (match h : lookupKV element.asMap k with
     | some v => (buildTable (some k) v (indentLevel + 1)).1
     | none => [])
    ++ buildMoreKeysFromList element ks indentLevel
termination_by (sizeOf element, 0, sizeOf more)
decreasing_by
  all_goals
    simp_wf
    simp only [Prod.lex_def]
    first
      | omega
      | (refine Or.inr ⟨trivial, ?_⟩
         first
           | omega
           | (refine Or.inr ⟨trivial, ?_⟩; omega))
      | (have hlt := sizeOf_asMap_lookup_lt h; omega)
      | (have hlt := sizeOf_lookupKV_lt h; omega)

/-- `_build_sub_table_from_dict(current, indent_level)`. -/
def buildSubTableFromDict (current : List (String × Value)) (indentLevel : Nat) :
    List Op :=
  let hm := groupScalarKeys current
  (match hm.1 with
   | [k] => [Op.row [Value.scalar (.str k), getItem current k]]
   | [] => []
   | ks => [Op.rowHeader ks, Op.row (ks.map (getItem current))])
  ++ buildMoreKeysFromDict current hm.2 indentLevel
termination_by (sizeOf current + 1, 1, 0)
decreasing_by
  all_goals
    simp_wf
    simp only [Prod.lex_def]
    first
      | omega
      | (refine Or.inr ⟨trivial, ?_⟩
         first
           | omega
           | (refine Or.inr ⟨trivial, ?_⟩; omega))
      | (have hlt := sizeOf_asMap_lookup_lt h; omega)
      | (have hlt := sizeOf_lookupKV_lt h; omega)

/-- The `for remaining in more` loop of `_build_sub_table_from_dict`.
The `none` arm is unreachable on faithful inputs: `more` only holds keys
of the dict, so `current[remaining]` cannot miss. -/
def buildMoreKeysFromDict (current : List (String × Value)) (more : List String)
    (indentLevel : Nat) : List Op :=
  match more with
  | [] => []
  | k :: ks =>
    (match h : lookupKV current k with
     | some v => (buildTable (some k) v (indentLevel + 1)).1
     | none => [])
    ++ buildMoreKeysFromDict current ks indentLevel
termination_by (sizeOf current + 1, 0, sizeOf more)
decreasing_by
  all_goals
    simp_wf
    simp only [Prod.lex_def]
    first
      | omega
      | (refine Or.inr ⟨trivial, ?_⟩
         first
           | omega
           | (refine Or.inr ⟨trivial, ?_⟩; omega))
      | (have hlt := sizeOf_asMap_lookup_lt h; omega)
      | (have hlt := sizeOf_lookupKV_lt h; omega)

end

/-! ### Characterizations of the builder loops -/

/-- The spec's description of the list-of-records header: the
lexicographically sorted union, across all records, of keys whose
associated value is scalar.  Stated independently of
`groupScalarKeysFromList` so the two can be compared. -/
def specScalarKeyUnion (l : List Value) : List String :=
  sortStr (dedupStr ((l.map (fun r =>
    (r.asMap.filter (fun kv => scalarType kv.2)).map Prod.fst)).flatten))

/-- One record's contribution in the list-of-records layout: its data
row (header keys looked up in the record, empty string when absent)
followed by, for each structural key present in this record, the trace
of a recursive build titled with that key at one deeper indent. -/
def recordBlock (hdrs more : List String) (i : Nat) (element : Value) : List Op :=
  Op.row (hdrs.map (fun k => getDefault element.asMap k)) ::
    more.flatMap (fun k =>
      match h : lookupKV element.asMap k with
      | some v => (buildTable (some k) v (i + 1)).1
      | none => [])

theorem buildMoreKeysFromList_eq (element : Value) (i : Nat) :
    ∀ more : List String,
    buildMoreKeysFromList element more i =
      more.flatMap (fun k =>
        match h : lookupKV element.asMap k with
        | some v => (buildTable (some k) v (i + 1)).1
        | none => [])
  | [] => by simp [buildMoreKeysFromList]
  | k :: ks => by
    rw [List.flatMap_cons, ← buildMoreKeysFromList_eq element i ks]
    simp only [buildMoreKeysFromList]

theorem buildMoreKeysFromDict_eq (kvs : List (String × Value)) (i : Nat) :
    ∀ more : List String,
    buildMoreKeysFromDict kvs more i =
      more.flatMap (fun k =>
        match h : lookupKV kvs k with
        | some v => (buildTable (some k) v (i + 1)).1
        | none => [])
  | [] => by simp [buildMoreKeysFromDict]
  | k :: ks => by
    rw [List.flatMap_cons, ← buildMoreKeysFromDict_eq kvs i ks]
    simp only [buildMoreKeysFromDict]

theorem buildSeqItems_eq :
    ∀ items : List Value,
    buildSeqItems items =
      items.flatMap (fun item =>
        if scalarType item then [Op.row [item]]
        else if item.iterate.all scalarType then [Op.row item.iterate]
        else (buildTable none item 0).1)
  | [] => by simp [buildSeqItems]
  | item :: rest => by
    rw [List.flatMap_cons, ← buildSeqItems_eq rest]
    simp only [buildSeqItems]

theorem buildListRecords_false_eq (hdrs more : List String) (t : Option String)
    (i : Nat) :
    ∀ records : List Value,
    buildListRecords hdrs more t i false records =
      records.flatMap (fun e =>
        (if more.isEmpty then [] else [Op.newSection t i, Op.rowHeader hdrs]) ++
          recordBlock hdrs more i e)
  | [] => by simp [buildListRecords]
  | e :: rest => by
    rw [List.flatMap_cons, ← buildListRecords_false_eq hdrs more t i rest]
    simp only [buildListRecords, recordBlock, ← buildMoreKeysFromList_eq]
    cases hm : more.isEmpty <;> simp

theorem buildListRecords_true_cons (hdrs more : List String) (t : Option String)
    (i : Nat) (e : Value) (rest : List Value) :
    buildListRecords hdrs more t i true (e :: rest) =
      recordBlock hdrs more i e ++ buildListRecords hdrs more t i false rest := by
  simp only [buildListRecords, recordBlock, ← buildMoreKeysFromList_eq]
  simp

theorem buildSubTableFromList_eq (l : List Value) (i : Nat) (t : Option String) :
    buildSubTableFromList l i t =
      Op.rowHeader (groupScalarKeysFromList l).1 ::
        buildListRecords (groupScalarKeysFromList l).1
          (groupScalarKeysFromList l).2 t i true l := by
  simp only [buildSubTableFromList]

theorem buildSubTableFromDict_eq (kvs : List (String × Value)) (i : Nat) :
    buildSubTableFromDict kvs i =
      (match (groupScalarKeys kvs).1 with
       | [k] => [Op.row [Value.scalar (.str k), getItem kvs k]]
       | [] => []
       | ks => [Op.rowHeader ks, Op.row (ks.map (getItem kvs))])
      ++ buildMoreKeysFromDict kvs (groupScalarKeys kvs).2 i := by
  simp only [buildSubTableFromDict]

/-- Dispatch of `_build_table` on a non-empty list whose first element is
a dict: the whole list goes to `_build_sub_table_from_list`. -/
theorem buildTable_seq_mapHead (t : Option String) (i : Nat)
    (kvs : List (String × Value)) (xs : List Value) :
    buildTable t (.seq (Value.map kvs :: xs)) i =
      ((if t.isSome then [Op.newSection t i] else []) ++
        buildSubTableFromList (Value.map kvs :: xs) i t, true) := by
  rw [buildTable]
  simp [Value.truthy, Value.isMap]

/-- Dispatch of `_build_table` on a non-empty list whose first element is
not a dict: the per-element loop handles the whole list. -/
theorem buildTable_seq_nonMapHead (t : Option String) (i : Nat)
    (x : Value) (xs : List Value) (hx : x.isMap = false) :
    buildTable t (.seq (x :: xs)) i =
      ((if t.isSome then [Op.newSection t i] else []) ++
        buildSeqItems (x :: xs), true) := by
  rw [buildTable]
  simp [Value.truthy, hx]

/-- Dispatch of `_build_table` on a non-empty dict. -/
theorem buildTable_map (t : Option String) (i : Nat)
    (kvs : List (String × Value)) (hne : kvs ≠ []) :
    buildTable t (.map kvs) i =
      ((if t.isSome then [Op.newSection t i] else []) ++
        buildSubTableFromDict kvs i, true) := by
  rw [buildTable]
  simp [Value.truthy, hne]

/-! ### Key-set lemmas -/

theorem flatten_map_perm {α β : Type} (f g : α → List β)
    (h : ∀ x, List.Perm (f x) (g x)) :
    ∀ l : List α, List.Perm ((l.map f).flatten) ((l.map g).flatten)
  | [] => List.Perm.refl _
  | a :: as => by
    simp only [List.map_cons, List.flatten_cons]
    exact (h a).append (flatten_map_perm f g h as)

theorem sortStr_dedupStr_eq_of_perm {A B : List String} (h : List.Perm A B) :
    sortStr (dedupStr A) = sortStr (dedupStr B) := by
  apply sortStr_eq_of_perm
  rw [List.perm_ext_iff_of_nodup (nodup_dedupStr A) (nodup_dedupStr B)]
  intro a
  rw [mem_dedupStr, mem_dedupStr]
  exact h.mem_iff

/-- The header computed by `_group_scalar_keys_from_list` is exactly the
spec's sorted union of scalar keys across all records. -/
theorem groupScalarKeysFromList_fst_eq_spec (l : List Value) :
    (groupScalarKeysFromList l).1 = specScalarKeyUnion l := by
  unfold groupScalarKeysFromList specScalarKeyUnion
  simp only [groupScalarKeys]
  exact sortStr_dedupStr_eq_of_perm
    (flatten_map_perm
      (fun item => sortStr ((item.asMap.filter
        (fun kv => scalarType kv.2)).map Prod.fst))
      (fun r => (r.asMap.filter (fun kv => scalarType kv.2)).map Prod.fst)
      (fun item => sortStr_perm _) l)

theorem lookupKV_eq_none_iff {kvs : List (String × Value)} {k : String} :
    lookupKV kvs k = none ↔ k ∉ kvs.map Prod.fst := by
  induction kvs with
  | nil => simp [lookupKV]
  | cons kv rest ih =>
    simp only [lookupKV, List.map_cons, List.mem_cons]
    split_ifs with hk
    · simp [hk]
    · simp only [ih]
      constructor
      · intro hnot hor
        rcases hor with hor | hor
        · exact hk hor.symm
        · exact hnot hor
      · intro hnot hmem
        exact hnot (Or.inr hmem)

theorem lookupKV_mem {kvs : List (String × Value)} {k : String} {v : Value}
    (h : lookupKV kvs k = some v) : (k, v) ∈ kvs := by
  induction kvs with
  | nil => simp [lookupKV] at h
  | cons kv rest ih =>
    simp only [lookupKV] at h
    split_ifs at h with hk
    · injection h with h
      subst h
      subst hk
      exact List.mem_cons_self _ _
    · exact List.mem_cons_of_mem _ (ih h)

theorem lookupKV_of_mem_of_nodup {kvs : List (String × Value)} {k : String}
    {v : Value} (hnd : (kvs.map Prod.fst).Nodup) (hm : (k, v) ∈ kvs) :
    lookupKV kvs k = some v := by
  induction kvs with
  | nil => simp at hm
  | cons kv rest ih =>
    simp only [List.map_cons, List.nodup_cons] at hnd
    rcases List.mem_cons.mp hm with rfl | hm
    · simp [lookupKV]
    · have hk : kv.1 ≠ k := by
        intro he
        exact hnd.1 (he ▸ List.mem_map_of_mem Prod.fst hm)
      simp only [lookupKV, if_neg hk]
      exact ih hnd.2 hm

theorem lookupKV_eq_of_perm {kvs₁ kvs₂ : List (String × Value)}
    (hnd : (kvs₁.map Prod.fst).Nodup) (hp : List.Perm kvs₁ kvs₂) (k : String) :
    lookupKV kvs₁ k = lookupKV kvs₂ k := by
  have hnd₂ : (kvs₂.map Prod.fst).Nodup := ((hp.map Prod.fst).nodup_iff).mp hnd
  cases h1 : lookupKV kvs₁ k with
  | some v =>
    exact (lookupKV_of_mem_of_nodup hnd₂ (hp.mem_iff.mp (lookupKV_mem h1))).symm
  | none =>
    cases h2 : lookupKV kvs₂ k with
    | none => rfl
    | some v =>
      exact absurd ((hp.mem_iff).mpr (lookupKV_mem h2))
        (fun hm => (lookupKV_eq_none_iff.mp h1)
          (List.mem_map_of_mem Prod.fst hm))

theorem getItem_congr {kvs₁ kvs₂ : List (String × Value)}
    (hl : ∀ k, lookupKV kvs₁ k = lookupKV kvs₂ k) (k : String) :
    getItem kvs₁ k = getItem kvs₂ k := by
  unfold getItem
  rw [hl k]

theorem buildMoreKeysFromDict_congr {kvs₁ kvs₂ : List (String × Value)}
    (hl : ∀ k, lookupKV kvs₁ k = lookupKV kvs₂ k) (i : Nat) :
    ∀ more : List String,
    buildMoreKeysFromDict kvs₁ more i = buildMoreKeysFromDict kvs₂ more i
  | [] => by simp [buildMoreKeysFromDict]
  | k :: ks => by
    simp only [buildMoreKeysFromDict]
    rw [buildMoreKeysFromDict_congr hl i ks]
    congr 1
    have hk := hl k
    split
    · rename_i v h1
      rw [hk] at h1
      split
      · rename_i v2 h2
        rw [h1] at h2
        injection h2 with h2
        rw [h2]
      · rename_i h2
        rw [h1] at h2
        exact Option.noConfusion h2
    · rename_i h1
      rw [hk] at h1
      split
      · rename_i v2 h2
        rw [h1] at h2
        exact Option.noConfusion h2
      · rfl

theorem buildSubTableFromDict_congr {kvs₁ kvs₂ : List (String × Value)}
    (hl : ∀ k, lookupKV kvs₁ k = lookupKV kvs₂ k)
    (hgroup : groupScalarKeys kvs₁ = groupScalarKeys kvs₂) (i : Nat) :
    buildSubTableFromDict kvs₁ i = buildSubTableFromDict kvs₂ i := by
  have hgi : getItem kvs₁ = getItem kvs₂ := funext (getItem_congr hl)
  rw [buildSubTableFromDict_eq, buildSubTableFromDict_eq, hgroup,
      buildMoreKeysFromDict_congr hl i, hgi]

theorem groupScalarKeys_eq_of_perm {kvs₁ kvs₂ : List (String × Value)}
    (hp : List.Perm kvs₁ kvs₂) :
    groupScalarKeys kvs₁ = groupScalarKeys kvs₂ := by
  unfold groupScalarKeys
  rw [sortStr_eq_of_perm ((hp.filter _).map Prod.fst),
      sortStr_eq_of_perm ((hp.filter _).map Prod.fst)]

theorem sortStr_singleton (k : String) : sortStr [k] = [k] := by
  simp [sortStr, List.insertionSort, List.orderedInsert]

/-! ### Claim theorems -/

/-- C3: for every empty input value (empty mapping, empty sequence,
null, or falsy-empty scalar) and any title and indent level,
`_build_table` performs no table mutation (emits no operations) and
returns `False`; since every recursive entry -- in particular the one
made for a structural key -- goes through `_build_table`, no Section is
ever emitted for a structural key whose sub-value is empty. -/
theorem buildTable_empty_no_mutation (t : Option String) (v : Value) (i : Nat)
    (h : v.truthy = false) : buildTable t v i = ([], false) := by
  rw [buildTable.eq_def]
  simp [h]

theorem buildTable_empty_no_mutation_witness :
    (Value.map []).truthy = false ∧
      buildTable (some "Tags") (Value.map []) 2 = ([], false) ∧
      (Value.seq []).truthy = false ∧
      buildTable (some "Tags") (Value.seq []) 0 = ([], false) ∧
      (Value.scalar .null).truthy = false ∧
      buildTable none (Value.scalar .null) 1 = ([], false) ∧
      (Value.scalar (.str "")).truthy = false ∧
      buildTable (some "T") (Value.scalar (.str "")) 0 = ([], false) :=
  ⟨by decide, buildTable_empty_no_mutation _ _ _ (by decide),
   by decide, buildTable_empty_no_mutation _ _ _ (by decide),
   by decide, buildTable_empty_no_mutation _ _ _ (by decide),
   by decide, buildTable_empty_no_mutation _ _ _ (by decide)⟩

/-- C10: a non-empty (truthy) scalar with a non-null title opens exactly
one titled Section at the given indent level, adds no rows at all (the
scalar value itself never appears in the table), and still returns
`True`. -/
theorem buildTable_scalar_titled_section (t : String) (s : Scalar) (i : Nat)
    (h : s.truthy = true) :
    buildTable (some t) (.scalar s) i = ([Op.newSection (some t) i], true) := by
  rw [buildTable]
  simp [Value.truthy, h]

theorem buildTable_scalar_titled_section_witness :
    Scalar.truthy (.str "running") = true ∧
      buildTable (some "State") (.scalar (.str "running")) 2 =
        ([Op.newSection (some "State") 2], true) :=
  ⟨by decide, buildTable_scalar_titled_section "State" (.str "running") 2 (by decide)⟩

/-- C5: two mappings holding the same key/value pairs in different
insertion orders (and with unique keys, as Python dict keys are) produce
identical operation traces, hence identical rendered output: key
ordering comes only from the lexicographic sorts in
`_group_scalar_keys`, never from insertion order. -/
theorem buildTable_map_insertion_order_invariant
    (kvs₁ kvs₂ : List (String × Value))
    (hnd : (kvs₁.map Prod.fst).Nodup) (hp : List.Perm kvs₁ kvs₂)
    (t : Option String) (i : Nat) :
    buildTable t (.map kvs₁) i = buildTable t (.map kvs₂) i := by
  by_cases hn : kvs₁ = []
  · subst hn
    rw [hp.symm.eq_nil]
  · have hn₂ : kvs₂ ≠ [] := fun he => hn (by rw [he] at hp; exact hp.eq_nil)
    rw [buildTable_map t i kvs₁ hn, buildTable_map t i kvs₂ hn₂,
        buildSubTableFromDict_congr (lookupKV_eq_of_perm hnd hp)
          (groupScalarKeys_eq_of_perm hp) i]

theorem buildTable_map_insertion_order_invariant_witness :
    (([("Name", Value.scalar (.str "x")), ("Id", Value.scalar (.int 7))].map
        Prod.fst).Nodup) ∧
      List.Perm [("Name", Value.scalar (.str "x")), ("Id", Value.scalar (.int 7))]
        [("Id", Value.scalar (.int 7)), ("Name", Value.scalar (.str "x"))] ∧
      buildTable (some "T")
          (.map [("Name", Value.scalar (.str "x")), ("Id", Value.scalar (.int 7))]) 0 =
        buildTable (some "T")
          (.map [("Id", Value.scalar (.int 7)), ("Name", Value.scalar (.str "x"))]) 0 :=
  ⟨by decide,
   List.Perm.swap ("Id", Value.scalar (.int 7)) ("Name", Value.scalar (.str "x")) [],
   buildTable_map_insertion_order_invariant _ _ (by decide)
     (List.Perm.swap ("Id", Value.scalar (.int 7)) ("Name", Value.scalar (.str "x")) [])
     (some "T") 0⟩

/-- C4: a mapping with exactly one scalar key emits, for its own fields,
exactly one two-cell data row `[key, value]` and no header row; the
remaining trace is only the structural-key recursion of
`_build_sub_table_from_dict`.  This holds regardless of how many
structural keys the mapping has. -/
theorem dict_single_scalar_key_two_cell_row (kvs : List (String × Value))
    (k : String) (t : Option String) (i : Nat)
    (hone : (kvs.filter (fun kv => scalarType kv.2)).map Prod.fst = [k]) :
    buildTable t (.map kvs) i =
      ((if t.isSome then [Op.newSection t i] else []) ++
        (Op.row [Value.scalar (.str k), getItem kvs k] ::
          buildMoreKeysFromDict kvs (groupScalarKeys kvs).2 i), true) := by
  have hne : kvs ≠ [] := by
    intro he
    rw [he] at hone
    simp at hone
  have hfst : (groupScalarKeys kvs).1 = [k] := by
    simp only [groupScalarKeys]
    rw [hone, sortStr_singleton]
  rw [buildTable_map t i kvs hne, buildSubTableFromDict_eq, hfst]
  rfl

theorem dict_single_scalar_key_two_cell_row_witness :
    (([("Name", Value.scalar (.str "x")),
       ("Tags", Value.seq [Value.map [("Key", Value.scalar (.str "a"))]])].filter
        (fun kv => scalarType kv.2)).map Prod.fst = ["Name"] ∧
      buildTable (some "Instance")
          (.map [("Name", Value.scalar (.str "x")),
                 ("Tags", Value.seq [Value.map [("Key", Value.scalar (.str "a"))]])]) 0 =
        ((if (some "Instance" : Option String).isSome
          then [Op.newSection (some "Instance") 0] else []) ++
          (Op.row [Value.scalar (.str "Name"),
              getItem [("Name", Value.scalar (.str "x")),
                       ("Tags", Value.seq [Value.map [("Key", Value.scalar (.str "a"))]])]
                "Name"] ::
            buildMoreKeysFromDict
              [("Name", Value.scalar (.str "x")),
               ("Tags", Value.seq [Value.map [("Key", Value.scalar (.str "a"))]])]
              (groupScalarKeys
                [("Name", Value.scalar (.str "x")),
                 ("Tags", Value.seq [Value.map [("Key", Value.scalar (.str "a"))]])]).2
              0), true)) :=
  ⟨by decide,
   dict_single_scalar_key_two_cell_row _ "Name" (some "Instance") 0 (by decide)⟩

/-- C9: the choice between the list-of-records rule and the per-element
rule is decided solely by whether the first element of the sequence is a
dict: a map-headed sequence goes to `_build_sub_table_from_list`
whatever its later elements are, and a non-map-headed sequence is
handled element by element even when later elements are dicts. -/
theorem buildTable_dispatch_on_head :
    (∀ (t : Option String) (i : Nat) (kvs : List (String × Value))
        (xs : List Value),
      buildTable t (.seq (Value.map kvs :: xs)) i =
        ((if t.isSome then [Op.newSection t i] else []) ++
          buildSubTableFromList (Value.map kvs :: xs) i t, true)) ∧
    (∀ (t : Option String) (i : Nat) (x : Value) (xs : List Value),
      x.isMap = false →
      buildTable t (.seq (x :: xs)) i =
        ((if t.isSome then [Op.newSection t i] else []) ++
          buildSeqItems (x :: xs), true)) :=
  ⟨buildTable_seq_mapHead, buildTable_seq_nonMapHead⟩

theorem buildTable_dispatch_on_head_witness :
    (Value.scalar (.int 5)).isMap = false ∧
      buildTable none (.seq [Value.map [("a", Value.scalar (.int 1))],
                             Value.scalar (.int 5)]) 0 =
        (buildSubTableFromList [Value.map [("a", Value.scalar (.int 1))],
                                Value.scalar (.int 5)] 0 none, true) ∧
      buildTable none (.seq [Value.scalar (.int 5),
                             Value.map [("a", Value.scalar (.int 1))]]) 0 =
        (buildSeqItems [Value.scalar (.int 5),
                        Value.map [("a", Value.scalar (.int 1))]], true) := by
  refine ⟨by decide, ?_, ?_⟩
  · have h := buildTable_dispatch_on_head.1 none 0
      [("a", Value.scalar (.int 1))] [Value.scalar (.int 5)]
    simpa using h
  · have h := buildTable_dispatch_on_head.2 none 0 (Value.scalar (.int 5))
      [Value.map [("a", Value.scalar (.int 1))]] (by decide)
    simpa using h

/-- C7 (amended: the claim's "at the same indent level" is corrected to
"at indent level 0"): for a non-empty sequence whose first element is
not a dict, each element is handled as follows: a scalar yields a
single-cell data row; a list/dict whose iterated elements are all
scalar yields one multi-cell data row; any other element triggers a
recursive build with a null title at indent level 0 (the
`indent_level` parameter default of `_build_table`), which coincides
with the current indent level only at top level.  No header row is
established by this branch itself. -/
theorem seq_elementwise_rule (t : Option String) (i : Nat)
    (x : Value) (xs : List Value) (hx : x.isMap = false) :
    buildTable t (.seq (x :: xs)) i =
      ((if t.isSome then [Op.newSection t i] else []) ++
        (x :: xs).flatMap (fun item =>
          if scalarType item then [Op.row [item]]
          else if item.iterate.all scalarType then [Op.row item.iterate]
          else (buildTable none item 0).1), true) := by
  rw [buildTable_seq_nonMapHead t i x xs hx, buildSeqItems_eq]

theorem seq_elementwise_rule_witness :
    (Value.scalar (.int 1)).isMap = false ∧
      buildTable (some "T")
          (.seq [Value.scalar (.int 1),
                 Value.seq [Value.map [("a", Value.scalar (.str "1"))]]]) 1 =
        ((if (some "T" : Option String).isSome
          then [Op.newSection (some "T") 1] else []) ++
          ([Value.scalar (.int 1),
            Value.seq [Value.map [("a", Value.scalar (.str "1"))]]].flatMap
            (fun item =>
              if scalarType item then [Op.row [item]]
              else if item.iterate.all scalarType then [Op.row item.iterate]
              else (buildTable none item 0).1)), true) :=
  ⟨by decide, seq_elementwise_rule (some "T") 1 _ _ (by decide)⟩

/-- C2 (amended: the claim's "with no title (a null title)" is corrected
to "with the structural key as the title"): in the list-of-records rule,
after emitting a record's data row, for every structural key present in
that particular record the builder recurses on that key's sub-value
with the key itself as the title, at `indent_level + 1`; structural
keys absent from the record are skipped
(`if remaining in element: build(remaining, element[remaining], ...)`). -/
theorem listRecords_structural_recursion_uses_key_title
    (hdrs more : List String) (t : Option String) (i : Nat)
    (e : Value) (rest : List Value) :
    buildListRecords hdrs more t i true (e :: rest) =
      (Op.row (hdrs.map (fun k => getDefault e.asMap k)) ::
        more.flatMap (fun k =>
          match h : lookupKV e.asMap k with
          | some v => (buildTable (some k) v (i + 1)).1
          | none => [])) ++
        buildListRecords hdrs more t i false rest := by
  rw [buildListRecords_true_cons]
  rfl

/-- C2 counterexample to the claim as stated: for the single-record list
`[{"a": "1", "b": {"k": "v"}}]`, the structural-key recursion is not
performed with a null title -- the actual trace opens a Section titled
`"b"`, while a null-title recursion would emit the nested row with no
Section at all. -/
theorem listRecords_recursion_not_null_titled :
    buildSubTableFromList
        [Value.map [("a", Value.scalar (.str "1")),
                    ("b", Value.map [("k", Value.scalar (.str "v"))])]] 0 (some "T") ≠
      Op.rowHeader ["a"] :: Op.row [Value.scalar (.str "1")] ::
        (buildTable none (Value.map [("k", Value.scalar (.str "v"))]) 1).1 := by
  simp [buildSubTableFromList, buildListRecords, buildMoreKeysFromList, buildTable,
        buildSubTableFromDict, buildMoreKeysFromDict, buildSeqItems,
        groupScalarKeysFromList, groupScalarKeys, dedupStr, sortStr,
        List.insertionSort, List.orderedInsert, strLe, strLeB, lexLt,
        Value.truthy, Scalar.truthy, Value.isMap, scalarType, Value.asMap,
        Value.iterate, lookupKV, getItem, getDefault]

/-- C7 counterexample to the claim as stated: building the sequence
`[1, [{"a": "1", "b": {"k": "v"}}]]` at indent level 1, the recursive
build for the mixed second element is not performed at the same indent
level: the actual trace nests the `"b"` Section at indent 1 (recursion
started at indent 0), while same-indent recursion would nest it at
indent 2. -/
theorem seq_elementwise_not_same_indent :
    (buildTable (some "T")
        (.seq [Value.scalar (.int 1),
               Value.seq [Value.map [("a", Value.scalar (.str "1")),
                                     ("b", Value.map [("k", Value.scalar (.str "v"))])]]]) 1).1 ≠
      Op.newSection (some "T") 1 :: Op.row [Value.scalar (.int 1)] ::
        (buildTable none
            (Value.seq [Value.map [("a", Value.scalar (.str "1")),
                                   ("b", Value.map [("k", Value.scalar (.str "v"))])]]) 1).1 := by
  simp [buildSubTableFromList, buildListRecords, buildMoreKeysFromList, buildTable,
        buildSubTableFromDict, buildMoreKeysFromDict, buildSeqItems,
        groupScalarKeysFromList, groupScalarKeys, dedupStr, sortStr,
        List.insertionSort, List.orderedInsert, strLe, strLeB, lexLt,
        Value.truthy, Scalar.truthy, Value.isMap, scalarType, Value.asMap,
        Value.iterate, lookupKV, getItem, getDefault]

theorem buildListRecords_no_more (hdrs : List String) (t : Option String)
    (i : Nat) (first : Bool) :
    ∀ l : List Value,
    buildListRecords hdrs [] t i first l =
      l.map (fun e => Op.row (hdrs.map (fun k => getDefault e.asMap k)))
  | [] => by simp [buildListRecords]
  | e :: rest => by
    simp only [buildListRecords, List.map_cons]
    rw [buildListRecords_no_more hdrs t i false rest]
    simp [buildMoreKeysFromList]

/-- C6: in the list-of-records rule, a fresh Section with the same title
and the same indent level, with the header row repeated, is opened
before each record after the first iff the structural-key set is
non-empty (equivalently, iff there is more than one record and
structural keys exist -- with a single record there is no "record after
the first"); when there are no structural keys, every record's row
stays in the single Section under the one header row. -/
theorem listRecords_section_reopening (l : List Value) (i : Nat)
    (t : Option String) :
    ((groupScalarKeysFromList l).2 = [] →
      buildSubTableFromList l i t =
        Op.rowHeader (groupScalarKeysFromList l).1 ::
          l.map (fun e => Op.row ((groupScalarKeysFromList l).1.map
            (fun k => getDefault e.asMap k)))) ∧
    (∀ e rest, l = e :: rest → (groupScalarKeysFromList l).2 ≠ [] →
      buildSubTableFromList l i t =
        Op.rowHeader (groupScalarKeysFromList l).1 ::
          (recordBlock (groupScalarKeysFromList l).1
              (groupScalarKeysFromList l).2 i e ++
            rest.flatMap (fun r =>
              Op.newSection t i :: Op.rowHeader (groupScalarKeysFromList l).1 ::
                recordBlock (groupScalarKeysFromList l).1
                  (groupScalarKeysFromList l).2 i r))) := by
  constructor
  · intro hM
    rw [buildSubTableFromList_eq, hM, buildListRecords_no_more]
  · intro e rest hl hM
    subst hl
    have hMe : (groupScalarKeysFromList (e :: rest)).2.isEmpty = false := by
      cases hq : (groupScalarKeysFromList (e :: rest)).2 with
      | nil => exact absurd hq hM
      | cons a as => rfl
    rw [buildSubTableFromList_eq, buildListRecords_true_cons,
        buildListRecords_false_eq]
    simp [hMe]

theorem listRecords_section_reopening_witness :
    (groupScalarKeysFromList
        [Value.map [("b", Value.scalar (.str "2"))],
         Value.map [("a", Value.scalar (.str "1"))]]).2 = [] ∧
    buildSubTableFromList
        [Value.map [("b", Value.scalar (.str "2"))],
         Value.map [("a", Value.scalar (.str "1"))]] 0 (some "S") =
      Op.rowHeader (groupScalarKeysFromList
          [Value.map [("b", Value.scalar (.str "2"))],
           Value.map [("a", Value.scalar (.str "1"))]]).1 ::
        [Value.map [("b", Value.scalar (.str "2"))],
         Value.map [("a", Value.scalar (.str "1"))]].map (fun e =>
          Op.row ((groupScalarKeysFromList
              [Value.map [("b", Value.scalar (.str "2"))],
               Value.map [("a", Value.scalar (.str "1"))]]).1.map
            (fun k => getDefault e.asMap k))) ∧
    (groupScalarKeysFromList
        [Value.map [("a", Value.scalar (.str "1"))],
         Value.map [("a", Value.scalar (.str "2")),
                    ("X", Value.map [("k", Value.scalar (.str "v"))])]]).2 ≠ [] ∧
    buildSubTableFromList
        [Value.map [("a", Value.scalar (.str "1"))],
         Value.map [("a", Value.scalar (.str "2")),
                    ("X", Value.map [("k", Value.scalar (.str "v"))])]] 0 (some "S") =
      Op.rowHeader (groupScalarKeysFromList
          [Value.map [("a", Value.scalar (.str "1"))],
           Value.map [("a", Value.scalar (.str "2")),
                      ("X", Value.map [("k", Value.scalar (.str "v"))])]]).1 ::
        (recordBlock
            (groupScalarKeysFromList
              [Value.map [("a", Value.scalar (.str "1"))],
               Value.map [("a", Value.scalar (.str "2")),
                          ("X", Value.map [("k", Value.scalar (.str "v"))])]]).1
            (groupScalarKeysFromList
              [Value.map [("a", Value.scalar (.str "1"))],
               Value.map [("a", Value.scalar (.str "2")),
                          ("X", Value.map [("k", Value.scalar (.str "v"))])]]).2
            0 (Value.map [("a", Value.scalar (.str "1"))]) ++
          [Value.map [("a", Value.scalar (.str "2")),
                      ("X", Value.map [("k", Value.scalar (.str "v"))])]].flatMap
            (fun r =>
              Op.newSection (some "S") 0 ::
                Op.rowHeader (groupScalarKeysFromList
                  [Value.map [("a", Value.scalar (.str "1"))],
                   Value.map [("a", Value.scalar (.str "2")),
                              ("X", Value.map [("k", Value.scalar (.str "v"))])]]).1 ::
                  recordBlock
                    (groupScalarKeysFromList
                      [Value.map [("a", Value.scalar (.str "1"))],
                       Value.map [("a", Value.scalar (.str "2")),
                                  ("X", Value.map [("k", Value.scalar (.str "v"))])]]).1
                    (groupScalarKeysFromList
                      [Value.map [("a", Value.scalar (.str "1"))],
                       Value.map [("a", Value.scalar (.str "2")),
                                  ("X", Value.map [("k", Value.scalar (.str "v"))])]]).2
                    0 r)) :=
  ⟨by decide,
   (listRecords_section_reopening
      [Value.map [("b", Value.scalar (.str "2"))],
       Value.map [("a", Value.scalar (.str "1"))]] 0 (some "S")).1 (by decide),
   by decide,
   (listRecords_section_reopening
      [Value.map [("a", Value.scalar (.str "1"))],
       Value.map [("a", Value.scalar (.str "2")),
                  ("X", Value.map [("k", Value.scalar (.str "v"))])]] 0 (some "S")).2
     _ _ rfl (by decide)⟩

/-- C1: for a non-empty sequence of mappings, the builder emits one
header row equal to the lexicographically sorted union, across all
records, of the keys whose value is scalar (`specScalarKeyUnion`), and
exactly one data row per record in original record order, each row's
cells being the record's values for the header keys in header order
with an empty-string fallback for keys the record lacks
(`element.get(header, '')` = `getDefault`).  The all-mappings
hypothesis restricts the statement to the domain where this embedding
is faithful: Python raises `TypeError` when a non-mapping element
reaches the record routine, and the spec's own phrasing is "for all
list-of-mapping inputs". -/
theorem listOfRecords_header_and_rows (t : Option String) (i : Nat)
    (e : Value) (rest : List Value)
    (hmaps : ∀ v ∈ e :: rest, v.isMap = true) :
    buildTable t (.seq (e :: rest)) i =
      ((if t.isSome then [Op.newSection t i] else []) ++
        (Op.rowHeader (specScalarKeyUnion (e :: rest)) ::
          (recordBlock (specScalarKeyUnion (e :: rest))
              (groupScalarKeysFromList (e :: rest)).2 i e ++
            rest.flatMap (fun r =>
              (if (groupScalarKeysFromList (e :: rest)).2.isEmpty then []
               else [Op.newSection t i,
                     Op.rowHeader (specScalarKeyUnion (e :: rest))]) ++
                recordBlock (specScalarKeyUnion (e :: rest))
                  (groupScalarKeysFromList (e :: rest)).2 i r))), true) := by
  have he : e.isMap = true := hmaps e (List.mem_cons_self e rest)
  obtain ⟨kvs, rfl⟩ : ∃ kvs, e = Value.map kvs := by
    cases e with
    | map kvs => exact ⟨kvs, rfl⟩
    | scalar s => exact absurd he (by simp [Value.isMap])
    | seq xs => exact absurd he (by simp [Value.isMap])
  rw [buildTable_seq_mapHead, buildSubTableFromList_eq,
      buildListRecords_true_cons, buildListRecords_false_eq,
      groupScalarKeysFromList_fst_eq_spec]

theorem listOfRecords_header_and_rows_witness :
    (∀ v ∈ [Value.map [("b", Value.scalar (.str "2"))],
            Value.map [("a", Value.scalar (.str "1"))]], v.isMap = true) ∧
    buildTable (some "Cmd")
        (.seq [Value.map [("b", Value.scalar (.str "2"))],
               Value.map [("a", Value.scalar (.str "1"))]]) 0 =
      ((if (some "Cmd" : Option String).isSome
        then [Op.newSection (some "Cmd") 0] else []) ++
        (Op.rowHeader (specScalarKeyUnion
            [Value.map [("b", Value.scalar (.str "2"))],
             Value.map [("a", Value.scalar (.str "1"))]]) ::
          (recordBlock (specScalarKeyUnion
                [Value.map [("b", Value.scalar (.str "2"))],
                 Value.map [("a", Value.scalar (.str "1"))]])
              (groupScalarKeysFromList
                [Value.map [("b", Value.scalar (.str "2"))],
                 Value.map [("a", Value.scalar (.str "1"))]]).2
              0 (Value.map [("b", Value.scalar (.str "2"))]) ++
            [Value.map [("a", Value.scalar (.str "1"))]].flatMap (fun r =>
              (if (groupScalarKeysFromList
                    [Value.map [("b", Value.scalar (.str "2"))],
                     Value.map [("a", Value.scalar (.str "1"))]]).2.isEmpty then []
               else [Op.newSection (some "Cmd") 0,
                     Op.rowHeader (specScalarKeyUnion
                       [Value.map [("b", Value.scalar (.str "2"))],
                        Value.map [("a", Value.scalar (.str "1"))]])]) ++
                recordBlock (specScalarKeyUnion
                    [Value.map [("b", Value.scalar (.str "2"))],
                     Value.map [("a", Value.scalar (.str "1"))]])
                  (groupScalarKeysFromList
                    [Value.map [("b", Value.scalar (.str "2"))],
                     Value.map [("a", Value.scalar (.str "1"))]]).2
                  0 r))), true) :=
  ⟨by decide,
   listOfRecords_header_and_rows (some "Cmd") 0
     (Value.map [("b", Value.scalar (.str "2"))])
     [Value.map [("a", Value.scalar (.str "1"))]] (by decide)⟩

/-! ### Render-boundary error handling (`TableFormatter._format_response`) -/

/-- Classification of an exception raised while `self.table.render(stream)`
writes to the stream.  In Python 3, `IOError` is an alias of `OSError`;
`BrokenPipeError` (the reader end of a pipe closed early) is one of its
subclasses, and other `OSError`s (e.g. `ENOSPC`) are distinct write
failures of the same class.  A write failure outside the `OSError`
hierarchy (e.g. `ValueError` from writing to a closed file object) is
not an `IOError`. -/
inductive WriteError where
  | brokenPipe
  | otherIOError
  | nonIOError
deriving DecidableEq, Repr

/-- Membership in the `IOError` exception class, which is what the
`except IOError` clause catches. -/
def WriteError.isIOError : WriteError → Bool
  | .brokenPipe => true
  | .otherIOError => true
  | .nonIOError => false

/-- `TableFormatter._format_response`: `self.table.render(stream)` is
attempted only when `_build_table` reported something rendered, and it
is wrapped in `try ... except IOError: pass`.  The render itself lives
in `awscli/table.py` (outside this source) and is abstracted here by its
outcome: normal termination or a raised write failure. -/
def formatResponseTable (buildOk : Bool)
    (renderOutcome : Except WriteError Unit) : Except WriteError Unit :=
  if buildOk then
    match renderOutcome with
    | .ok _ => .ok ()
    | .error e => if e.isIOError then .ok () else .error e
  else .ok ()

/-- C8 counterexample to the claim as stated: an `IOError`-class write
failure that is not a closed pipe (e.g. disk full) is also suppressed
by `except IOError: pass` instead of propagating as a fatal error. -/
theorem formatResponse_nonpipe_ioerror_not_fatal :
    WriteError.otherIOError ≠ WriteError.brokenPipe ∧
      formatResponseTable true (.error .otherIOError) ≠
        Except.error WriteError.otherIOError ∧
      formatResponseTable true (.error .otherIOError) = Except.ok () := by
  refine ⟨by decide, ?_, rfl⟩
  simp [formatResponseTable, WriteError.isIOError]

/-- C8 (amended: suppression is keyed on the exception class `IOError`,
not on the closed-pipe cause): during render, a write failure of the
`IOError` class -- the closed-pipe case among them -- is suppressed and
rendering terminates silently as normal, while a write failure outside
the `IOError` class propagates to the caller. -/
theorem formatResponse_ioerror_suppression (e : WriteError) :
    formatResponseTable true (.error e) =
      (if e.isIOError then Except.ok () else Except.error e) ∧
    formatResponseTable true (.ok ()) = Except.ok () ∧
    WriteError.brokenPipe.isIOError = true := by
  cases e <;> exact ⟨rfl, rfl, rfl⟩
